import Mathlib

/-! The tutorial composition root of zeromake/di (`_tutorial/main.go`).

A shallow embedding of the tutorial program.  Go functions that only compute
become Lean functions; Go functions that act on the outside world become
functions on an explicit `World` that carries the allocated servers and the
trace of observable actions.  Pointers to `http.Server` are indices into the
world's server heap.  A `*http.ServeMux` is passed by state: a method that
mutates the mux is a function from the old table to the new one.
-/

namespace Tutorial

/-! ## net/http values used by the program -/

/-- The request a handler receives; the handlers of the program never read it. -/
structure Request where
  path : String
deriving DecidableEq, Repr

/-- What a handler has written so far: the status line and the body bytes. -/
structure ResponseWriter where
  status : Option Nat
  body : String
deriving DecidableEq, Repr

/-- The constant `http.StatusOK`. -/
def StatusOK : Nat := 200

/-- Method `WriteHeader` of `http.ResponseWriter`. -/
def ResponseWriter.WriteHeader (w : ResponseWriter) (code : Nat) : ResponseWriter :=
  { w with status := some code }

/-- Method `Write` of `http.ResponseWriter`. -/
def ResponseWriter.Write (w : ResponseWriter) (bytes : String) : ResponseWriter :=
  { w with body := w.body ++ bytes }

/-- A handler function `func(http.ResponseWriter, *http.Request)`. -/
abbrev HandlerFunc := ResponseWriter → Request → ResponseWriter

/-- The handler table `http.ServeMux`: the registrations made on it, oldest first. -/
structure ServeMux where
  entries : List (String × HandlerFunc)

/-- The zero value `&http.ServeMux{}`. -/
def ServeMux.empty : ServeMux := ⟨[]⟩

/-- The patterns registered on a mux, in registration order. -/
def ServeMux.patterns (mux : ServeMux) : List String :=
  mux.entries.map Prod.fst

/-- The panics with which `net/http` refuses a registration: "http: nil handler",
"http: invalid pattern" and "http: multiple registrations for " with the pattern. -/
inductive Panic
  | nilHandler
  | invalidPattern
  | multipleRegistrations (pattern : String)
deriving DecidableEq, Repr

/-- The text of a panic of `net/http`. -/
def Panic.text : Panic → String
  | Panic.nilHandler => "http: nil handler"
  | Panic.invalidPattern => "http: invalid pattern"
  | Panic.multipleRegistrations pattern => "http: multiple registrations for " ++ pattern

/-- Method `Handle` of `*http.ServeMux`: registers `handler` for `pattern`; it
panics on the empty pattern, on a nil handler and on a pattern that is already
registered, in that order of checks. -/
def ServeMux.Handle (mux : ServeMux) (pattern : String) (handler : Option HandlerFunc) :
    Except Panic ServeMux :=
  if pattern = "" then Except.error Panic.invalidPattern
  else
    match handler with
    | none => Except.error Panic.nilHandler
    | some h =>
      if pattern ∈ mux.patterns then Except.error (Panic.multipleRegistrations pattern)
      else Except.ok ⟨mux.entries ++ [(pattern, h)]⟩

/-- Method `HandleFunc` of `*http.ServeMux`: panics on a nil handler function and
passes the others on to `Handle`. -/
def ServeMux.HandleFunc (mux : ServeMux) (pattern : String) (handler : Option HandlerFunc) :
    Except Panic ServeMux :=
  match handler with
  | none => Except.error Panic.nilHandler
  | some h => mux.Handle pattern (some h)

/-- The value `http.Server` with the two fields the program sets. -/
structure Server where
  Addr : String
  Handler : ServeMux

/-! ## The world -/

/-- A goroutine started with a `go` statement. -/
inductive Goroutine
  | listenAndServe (server : Nat)
  | awaitSignal (ctx : Nat)
deriving DecidableEq, Repr

/-- One observable action of the program.  The first five are actions of the
program text and of the standard library; the last five are the steps of the
container: a provider is recorded, a constructor is run, a bootstrap action is
called, an instance is copied into a caller's variable, a release function is
called. -/
inductive Event
  | Println (args : List String)
  | Fatal (err : String)
  | Close (server : Nat)
  | Go (g : Goroutine)
  | Done (ctx : Nat)
  | Provide (id : String)
  | Construct (id : String)
  | Invoke (action : String)
  | Resolve (id : String)
  | Release (id : String)
deriving DecidableEq, Repr

/-- The state outside the program's variables. `servers` is the heap of allocated
`http.Server` values (a pointer is an index), `contexts` counts the contexts made,
`closeResult p` is what `Close` answers on server `p` (`none` is a nil error) and
`trace` lists the actions performed so far, oldest first. -/
structure World where
  servers : List Server
  contexts : Nat
  closeResult : Nat → Option String
  trace : List Event

/-- Appends one action to the trace. -/
def World.emit (w : World) (e : Event) : World :=
  { w with trace := w.trace ++ [e] }

/-- A world in which nothing has happened yet. -/
def World.init (closeResult : Nat → Option String) : World :=
  { servers := [], contexts := 0, closeResult := closeResult, trace := [] }

/-- Method `Close` of `*http.Server`: the call is recorded and the answer is the
environment's. -/
def Server.Close (server : Nat) (w : World) : Option String × World :=
  (w.closeResult server, w.emit (Event.Close server))

/-! ## main.go -/

/-- `type StdLogger struct{}`. -/
structure StdLogger where
deriving DecidableEq, Repr

/-- `func NewStdLogger() *StdLogger`. -/
def NewStdLogger : StdLogger := {}

/-- `type Controller interface { RegisterRoutes(mux *http.ServeMux) }`: the method
returns with the table as it left it, or panics. -/
structure Controller where
  RegisterRoutes : ServeMux → Except Panic ServeMux

/-- The loop `for _, controller := range controllers { controller.RegisterRoutes(mux) }`
over the controllers that are still to be visited: a panic of a call ends the loop
and the function. -/
def NewServeMux.range : List Controller → ServeMux → Except Panic ServeMux
  | [], mux => Except.ok mux
  | controller :: rest, mux =>
    match controller.RegisterRoutes mux with
    | Except.ok mux => NewServeMux.range rest mux
    | Except.error p => Except.error p

/-- `func NewServeMux(controllers []Controller) *http.ServeMux`: the mux it returns,
or the panic it ends with. -/
def NewServeMux (controllers : List Controller) : Except Panic ServeMux :=
  let mux := ServeMux.empty
  NewServeMux.range controllers mux

/-- `type OrderController struct{}`. -/
structure OrderController where
deriving DecidableEq, Repr

/-- `func NewOrderController() *OrderController`.  The comment above it in the
source speaks of an "auth http controller"; the function returns the controller for
orders. -/
def NewOrderController : OrderController := {}

/-- `func (a *OrderController) RetrieveOrders(writer, request)`. -/
def OrderController.RetrieveOrders (_a : OrderController) : HandlerFunc :=
  fun writer _request => (writer.WriteHeader StatusOK).Write "Orders"

/-- `func (a *OrderController) RegisterRoutes(mux *http.ServeMux)`. -/
def OrderController.RegisterRoutes (a : OrderController) (mux : ServeMux) :
    Except Panic ServeMux :=
  mux.HandleFunc "/orders" (some a.RetrieveOrders)

/-- An `*OrderController` seen through the `Controller` interface. -/
def OrderController.toController (a : OrderController) : Controller :=
  ⟨a.RegisterRoutes⟩

/-- `type UserController struct{}`. -/
structure UserController where
deriving DecidableEq, Repr

/-- `func NewUserController() *UserController`. -/
def NewUserController : UserController := {}

/-- `func (e *UserController) RetrieveUsers(writer, request)`. -/
def UserController.RetrieveUsers (_e : UserController) : HandlerFunc :=
  fun writer _request => (writer.WriteHeader StatusOK).Write "Users"

/-- `func (e *UserController) RegisterRoutes(mux *http.ServeMux)`. -/
def UserController.RegisterRoutes (e : UserController) (mux : ServeMux) :
    Except Panic ServeMux :=
  mux.HandleFunc "/users" (some e.RetrieveUsers)

/-- A `*UserController` seen through the `Controller` interface. -/
def UserController.toController (e : UserController) : Controller :=
  ⟨e.RegisterRoutes⟩

/-- The closure `cleanup` built inside `NewServer`, for the server it captured. -/
def NewServer.cleanup (server : Nat) (w : World) : World :=
  match Server.Close server w with
  | (some err, w) => (w.emit (Event.Println ["server close error:", err])).emit
      (Event.Println ["server closed"])
  | (none, w) => w.emit (Event.Println ["server closed"])

/-- `func NewServer(mux *http.ServeMux) (*http.Server, func())`: allocates the
server and returns its pointer with the cleanup closure. -/
def NewServer (mux : ServeMux) (w : World) : (Nat × (World → World)) × World :=
  let server := w.servers.length
  let w := { w with servers := w.servers ++ [{ Addr := ":8080", Handler := mux }] }
  let cleanup := NewServer.cleanup server
  ((server, cleanup), w)

/-- `func StartServer(server *http.Server)`: starts the goroutine that listens. -/
def StartServer (server : Nat) (w : World) : World :=
  w.emit (Event.Go (Goroutine.listenAndServe server))

/-- `func NewContext() context.Context`: makes a cancellable context and starts the
goroutine that cancels it on SIGTERM or SIGINT. -/
def NewContext (w : World) : Nat × World :=
  let ctx := w.contexts
  let w := { w with contexts := w.contexts + 1 }
  (ctx, w.emit (Event.Go (Goroutine.awaitSignal ctx)))

end Tutorial

/-! ## The container (package `di`)

The package's own files are not part of the sources at hand; only its caller is.
The definitions of this section follow the specification of the composition and
lifecycle engine. -/

namespace di

open Tutorial

/-- A provider identity or a capability identifier: the name of a Go type. -/
abbrev Ident := String

/-- A release function returned by a constructor next to its instance. -/
abbrev Release := World → World

/-- Modelled from the spec: a declared parameter of a constructor or action (the
package's parameter parsing is missing): one value of a type or capability, or the
ordered collection of every provider bound to a capability. -/
inductive Param
  | single (id : Ident)
  | collection (cap : Ident)
deriving DecidableEq, Repr

/-- Modelled from the spec: a resolved argument (the package's injection code is
missing), of the same shape as the parameter it answers. -/
inductive Arg (V : Type)
  | single (v : V)
  | collection (vs : List V)

/-- Modelled from the spec: the Provider of the data model (the package's
registration code is missing).  Identity is the declared output type; it holds the
constructor, its parameter list and the capabilities it is bound to.  A constructor
answers an error value or an instance with an optional release function. -/
structure Provider (V : Type) where
  out : Ident
  params : List Param
  caps : List Ident
  construct : List (Arg V) → World → Except String (V × Option Release) × World

/-- Modelled from the spec: a bootstrap action of the Invoker (the package's
invoke code is missing): a side-effecting call that produces no registered value. -/
structure Action (V : Type) where
  name : String
  params : List Param
  run : List (Arg V) → World → World

/-- Modelled from the spec: the error taxonomy of the build phase (the package's
error values are missing). -/
inductive DiError
  | DuplicateProviderError (id : Ident)
  | UnresolvedTypeError (id : Ident)
  | CyclicDependencyError (path : List Ident)
  | ProviderConstructionError (id : Ident) (cause : String)
deriving DecidableEq, Repr

/-- Modelled from the spec: the Instance Cache Entry (the package's cache is
missing): provider identity, resolved value, construction sequence number and the
optional cleanup closure captured at construction time. -/
structure Instance (V : Type) where
  id : Ident
  value : V
  seq : Nat
  release : Option Release

/-- Modelled from the spec: one element of the Cleanup Stack (the package's
cleanup code is missing): a release function tagged with the construction
sequence number and the identity of the provider that returned it. -/
structure Pending where
  seq : Nat
  id : Ident
  release : Release

/-- Modelled from the spec: the Container of the data model (the package's
container type is missing).  It owns the registry (in registration order), the
instance cache (in construction order), the cleanup stack (top first) and the
construction counter. -/
structure Container (V : Type) where
  providers : List (Provider V)
  cache : List (Instance V)
  cleanups : List Pending
  counter : Nat

/-- A result of a container operation: the answer, the container and the world
after it. -/
abbrev Res (V α : Type) := Except DiError α × Container V × World

variable {V : Type}

/-- Modelled from the spec: the container before any registration (the package's
constructor is missing). -/
def Container.empty : Container V :=
  { providers := [], cache := [], cleanups := [], counter := 0 }

/-- Modelled from the spec: `register` of the Provider Registry (missing from the
sources): fails with `DuplicateProviderError` when the identity is taken. -/
def Container.register (c : Container V) (p : Provider V) : Except DiError (Container V) :=
  if c.providers.any (fun q => q.out == p.out) then
    Except.error (DiError.DuplicateProviderError p.out)
  else
    Except.ok { c with providers := c.providers ++ [p] }

/-- Modelled from the spec: `lookup` of the Provider Registry (missing from the
sources): the providers whose output type or one of whose capabilities is `id`,
in registration order. -/
def Container.lookup (c : Container V) (id : Ident) : List (Provider V) :=
  c.providers.filter (fun p => p.out == id || p.caps.contains id)

/-- Modelled from the spec: the read of the Instance Cache (missing from the
sources): the cached instance of a provider identity, if it was constructed. -/
def Container.cached (c : Container V) (id : Ident) : Option V :=
  (c.cache.find? (fun e => e.id == id)).map (fun e => e.value)

/-- Modelled from the spec: the write of the Instance Cache and Cleanup Stack on a
successful construction (missing from the sources): the instance is stored under
the provider identity, a release function, if one came with it, is pushed with
the current sequence number, and the counter advances. -/
def Container.store (c : Container V) (id : Ident) (v : V) (release : Option Release) :
    Container V :=
  { c with
    cache := c.cache ++ [{ id := id, value := v, seq := c.counter, release := release }]
    cleanups :=
      match release with
      | some r => { seq := c.counter, id := id, release := r } :: c.cleanups
      | none => c.cleanups
    counter := c.counter + 1 }

/-- Modelled from the spec: the resolution of a capability collection (missing from
the sources): the given providers are resolved one after the other with `recur`,
stopping at the first failure. -/
def resolveAll (recur : Provider V → List Ident → Container V → World → Res V V)
    (path : List Ident) : List (Provider V) → Container V → World → Res V (List V)
  | [], c, w => (Except.ok [], c, w)
  | p :: ps, c, w =>
    match recur p path c w with
    | (Except.error e, c, w) => (Except.error e, c, w)
    | (Except.ok v, c, w) =>
      match resolveAll recur path ps c w with
      | (Except.error e, c, w) => (Except.error e, c, w)
      | (Except.ok vs, c, w) => (Except.ok (v :: vs), c, w)

/-- Modelled from the spec: the resolution of one parameter by the Dependency
Resolver (missing from the sources).  A single-value parameter needs one matching
provider and fails with `UnresolvedTypeError` otherwise; a capability collection
resolves every bound provider in registration order and tolerates none. -/
def resolveParam (recur : Provider V → List Ident → Container V → World → Res V V)
    (path : List Ident) (param : Param) (c : Container V) (w : World) : Res V (Arg V) :=
  match param with
  | Param.single id =>
    match c.lookup id with
    | [p] =>
      match recur p path c w with
      | (Except.error e, c, w) => (Except.error e, c, w)
      | (Except.ok v, c, w) => (Except.ok (Arg.single v), c, w)
    | _ => (Except.error (DiError.UnresolvedTypeError id), c, w)
  | Param.collection cap =>
    match resolveAll recur path (c.lookup cap) c w with
    | (Except.error e, c, w) => (Except.error e, c, w)
    | (Except.ok vs, c, w) => (Except.ok (Arg.collection vs), c, w)

/-- Modelled from the spec: the traversal of a declared parameter list (missing
from the sources): from left to right, stopping at the first failure. -/
def resolveParams (recur : Provider V → List Ident → Container V → World → Res V V)
    (path : List Ident) : List Param → Container V → World → Res V (List (Arg V))
  | [], c, w => (Except.ok [], c, w)
  | param :: rest, c, w =>
    match resolveParam recur path param c w with
    | (Except.error e, c, w) => (Except.error e, c, w)
    | (Except.ok a, c, w) =>
      match resolveParams recur path rest c w with
      | (Except.error e, c, w) => (Except.error e, c, w)
      | (Except.ok as, c, w) => (Except.ok (a :: as), c, w)

/-- Modelled from the spec: the path carried by `CyclicDependencyError` (missing
from the sources): the cycle closed when `id` is met again while the identities of
`path` (innermost first) are in progress. -/
def cyclePath (path : List Ident) (id : Ident) : List Ident :=
  path.reverse.dropWhile (fun x => x != id) ++ [id]

/-- Modelled from the spec: `resolve` of the Dependency Resolver for one provider
(missing from the sources).  A resolved node answers from the cache; a node in
progress is a cycle; otherwise the parameters are resolved depth-first, the
constructor runs, and its instance is stored.  `path` lists the nodes in progress,
innermost first; the first argument bounds the depth of the traversal. -/
def resolveProvider : Nat → Provider V → List Ident → Container V → World → Res V V
  | 0, p, path, c, w => (Except.error (DiError.CyclicDependencyError (cyclePath path p.out)), c, w)
  | fuel + 1, p, path, c, w =>
    match c.cached p.out with
    | some v => (Except.ok v, c, w)
    | none =>
      if path.contains p.out then
        (Except.error (DiError.CyclicDependencyError (cyclePath path p.out)), c, w)
      else
        match resolveParams (resolveProvider fuel) (p.out :: path) p.params c w with
        | (Except.error e, c, w) => (Except.error e, c, w)
        | (Except.ok args, c, w) =>
          match p.construct args (w.emit (Event.Construct p.out)) with
          | (Except.error cause, w) =>
            (Except.error (DiError.ProviderConstructionError p.out cause), c, w)
          | (Except.ok (v, release), w) => (Except.ok v, c.store p.out v release, w)

/-- Modelled from the spec: the depth bound of a traversal (the package's graph walk
is missing): one more than the number of registered providers, the longest a path
of distinct identities can be. -/
def Container.fuel (c : Container V) : Nat := c.providers.length + 1

/-- Modelled from the spec: `resolve(identifier)` of the container (missing from
the sources). -/
def Container.resolve (c : Container V) (target : Param) (w : World) : Res V (Arg V) :=
  resolveParam (resolveProvider c.fuel) [] target c w

/-- Modelled from the spec: `invoke(action)` of the Invoker (missing from the
sources): the parameters are resolved as for a constructor, then the action is
called. -/
def Container.invoke (c : Container V) (a : Action V) (w : World) : Res V Unit :=
  match resolveParams (resolveProvider c.fuel) [] a.params c w with
  | (Except.error e, c, w) => (Except.error e, c, w)
  | (Except.ok args, c, w) => (Except.ok (), c, a.run args (w.emit (Event.Invoke a.name)))

/-- Modelled from the spec: a directive of the Container Facade (the package's
option types are missing): `di.Provide`, `di.Invoke` or `di.Resolve`.  The
capabilities of `di.As` are carried by the provider. -/
inductive Directive (V : Type)
  | Provide (p : Provider V)
  | Invoke (a : Action V)
  | Resolve (target : Param)

/-- The providers of the `Provide` directives, in declaration order. -/
def provides : List (Directive V) → List (Provider V)
  | [] => []
  | Directive.Provide p :: ds => p :: provides ds
  | _ :: ds => provides ds

/-- The actions of the `Invoke` directives, in declaration order. -/
def invokes : List (Directive V) → List (Action V)
  | [] => []
  | Directive.Invoke a :: ds => a :: invokes ds
  | _ :: ds => invokes ds

/-- The targets of the `Resolve` directives, in declaration order. -/
def resolves : List (Directive V) → List Param
  | [] => []
  | Directive.Resolve t :: ds => t :: resolves ds
  | _ :: ds => resolves ds

/-- The identifier a parameter names. -/
def Param.ident : Param → Ident
  | Param.single id => id
  | Param.collection cap => cap

/-- Modelled from the spec: the first phase of the Container Facade (missing from
the sources): every registration is recorded, no constructor runs. -/
def registerAll : List (Provider V) → Container V → World → Res V Unit
  | [], c, w => (Except.ok (), c, w)
  | p :: ps, c, w =>
    match c.register p with
    | Except.error e => (Except.error e, c, w)
    | Except.ok c => registerAll ps c (w.emit (Event.Provide p.out))

/-- Modelled from the spec: the second phase of the Container Facade (missing from
the sources): the invoke directives execute in order. -/
def invokeAll : List (Action V) → Container V → World → Res V Unit
  | [], c, w => (Except.ok (), c, w)
  | a :: as, c, w =>
    match c.invoke a w with
    | (Except.error e, c, w) => (Except.error e, c, w)
    | (Except.ok _, c, w) => invokeAll as c w

/-- Modelled from the spec: the third phase of the Container Facade (missing from
the sources): each resolve directive copies the instance into the caller's slot. -/
def resolveSlots : List Param → Container V → World → Res V (List (Arg V))
  | [], c, w => (Except.ok [], c, w)
  | t :: ts, c, w =>
    match c.resolve t w with
    | (Except.error e, c, w) => (Except.error e, c, w)
    | (Except.ok a, c, w) =>
      match resolveSlots ts c (w.emit (Event.Resolve t.ident)) with
      | (Except.error e, c, w) => (Except.error e, c, w)
      | (Except.ok as, c, w) => (Except.ok (a :: as), c, w)

/-- Modelled from the spec: what `di.New` hands back (the package's facade is
missing): the container, the error (`none` is nil) and the values written into the
variables named by the resolve directives. -/
structure Built (V : Type) where
  container : Container V
  err : Option DiError
  slots : List (Arg V)

/-- Modelled from the spec: `di.New` of the Container Facade (missing from the
sources): registrations, then invokes, then resolves; the first failure stops the
build and is returned with the container as it stands. -/
def New (options : List (Directive V)) (w : World) : Built V × World :=
  match registerAll (provides options) Container.empty w with
  | (Except.error e, c, w) => ({ container := c, err := some e, slots := [] }, w)
  | (Except.ok _, c, w) =>
    match invokeAll (invokes options) c w with
    | (Except.error e, c, w) => ({ container := c, err := some e, slots := [] }, w)
    | (Except.ok _, c, w) =>
      match resolveSlots (resolves options) c w with
      | (Except.error e, c, w) => ({ container := c, err := some e, slots := [] }, w)
      | (Except.ok slots, c, w) => ({ container := c, err := none, slots := slots }, w)

/-- Modelled from the spec: `runCleanup` of the Cleanup Stack (missing from the
sources): pops and calls the release functions from the top down. -/
def runCleanup : List Pending → World → World
  | [], w => w
  | e :: rest, w => runCleanup rest (e.release (w.emit (Event.Release e.id)))

/-- Modelled from the spec: `Cleanup` of the Container Facade (missing from the
sources): runs the cleanup stack and leaves it empty. -/
def Container.Cleanup (c : Container V) (w : World) : Container V × World :=
  ({ c with cleanups := [] }, runCleanup c.cleanups w)

/-- The cleanup-stack element a cache entry gave rise to, if its constructor returned
a release function. -/
def Instance.pending (e : Instance V) : Option Pending :=
  e.release.map fun r => { seq := e.seq, id := e.id, release := r }

/-- The cache lists the instances in construction order, numbered from zero by the
counter, and the cleanup stack holds, top first, the release functions of the
cached instances in the reverse of that order. -/
def Container.Ordered (c : Container V) : Prop :=
  c.cleanups = (c.cache.filterMap Instance.pending).reverse
    ∧ c.counter = c.cache.length
    ∧ c.cache.map (fun e => e.seq) = List.range c.cache.length

/-- Modelled from the spec: method `Error` of the build errors (the package's
messages are missing): the kind of the error and the identifier it carries. -/
def DiError.Error : DiError → String
  | DiError.DuplicateProviderError id => "DuplicateProviderError: " ++ id
  | DiError.UnresolvedTypeError id => "UnresolvedTypeError: " ++ id
  | DiError.CyclicDependencyError path => "CyclicDependencyError: " ++ ",".intercalate path
  | DiError.ProviderConstructionError id cause =>
    "ProviderConstructionError: " ++ id ++ ": " ++ cause

end di

/-! ## The composition root -/

namespace Tutorial

open di

/-- The instances the container of `main` can hold. -/
inductive Value
  | logger (l : StdLogger)
  | context (ctx : Nat)
  | server (p : Nat)
  | mux (m : ServeMux)
  | orderController (a : OrderController)
  | userController (e : UserController)

/-- The conversion of an instance to the `Controller` interface, for the types that
implement it. -/
def Value.toController : Value → Option Controller
  | Value.orderController a => some a.toController
  | Value.userController e => some e.toController
  | _ => none

/-- `di.Provide(NewStdLogger, di.As(new(di.Logger)))`. -/
def provideStdLogger : Provider Value :=
  { out := "*main.StdLogger", params := [], caps := ["di.Logger"]
    construct := fun _ w => (Except.ok (Value.logger NewStdLogger, none), w) }

/-- `di.Provide(NewContext)`. -/
def provideContext : Provider Value :=
  { out := "context.Context", params := [], caps := []
    construct := fun _ w =>
      match NewContext w with
      | (ctx, w) => (Except.ok (Value.context ctx, none), w) }

/-- `di.Provide(NewServer)`. -/
def provideServer : Provider Value :=
  { out := "*http.Server", params := [Param.single "*http.ServeMux"], caps := []
    construct := fun args w =>
      match args with
      | [Arg.single (Value.mux mux)] =>
        match NewServer mux w with
        | ((server, cleanup), w) => (Except.ok (Value.server server, some cleanup), w)
      | _ => (Except.error "argument mismatch", w) }

/-- `di.Provide(NewServeMux)`.  The specification of the container has no account
of a constructor that panics; a panic of `NewServeMux` is handed to the container as
the failure of the constructor. -/
def provideServeMux : Provider Value :=
  { out := "*http.ServeMux", params := [Param.collection "main.Controller"], caps := []
    construct := fun args w =>
      match args with
      | [Arg.collection vs] =>
        match vs.mapM Value.toController with
        | some controllers =>
          match NewServeMux controllers with
          | Except.ok mux => (Except.ok (Value.mux mux, none), w)
          | Except.error p => (Except.error p.text, w)
        | none => (Except.error "argument mismatch", w)
      | _ => (Except.error "argument mismatch", w) }

/-- `di.Provide(NewOrderController, di.As(new(Controller)))`. -/
def provideOrderController : Provider Value :=
  { out := "*main.OrderController", params := [], caps := ["main.Controller"]
    construct := fun _ w => (Except.ok (Value.orderController NewOrderController, none), w) }

/-- `di.Provide(NewUserController, di.As(new(Controller)))`. -/
def provideUserController : Provider Value :=
  { out := "*main.UserController", params := [], caps := ["main.Controller"]
    construct := fun _ w => (Except.ok (Value.userController NewUserController, none), w) }

/-- `di.Invoke(StartServer)`. -/
def invokeStartServer : Action Value :=
  { name := "StartServer", params := [Param.single "*http.Server"]
    run := fun args w =>
      match args with
      | [Arg.single (Value.server server)] => StartServer server w
      | _ => w }

/-- The options `main` passes to `di.New`, in the order of the program text. -/
def mainOptions : List (Directive Value) :=
  [ Directive.Provide provideStdLogger,
    Directive.Provide provideContext,
    Directive.Provide provideServer,
    Directive.Provide provideServeMux,
    Directive.Provide provideOrderController,
    Directive.Provide provideUserController,
    Directive.Invoke invokeStartServer,
    Directive.Resolve (Param.single "context.Context") ]

/-- The statements of `main` that act: the call of `di.New`, the call of
`log.Fatal`, the receive `<-ctx.Done()` and the call of `c.Cleanup()`. -/
inductive Stmt
  | New
  | Fatal
  | Recv
  | Cleanup
deriving DecidableEq, Repr

/-- The program points of `main`: before `di.New`, at `if err != nil`, blocked in
`<-ctx.Done()`, before `c.Cleanup()`, after the last statement, after
`log.Fatal` ended the process, and after a call through a nil interface. -/
inductive Pc
  | callNew
  | checkErr
  | waitDone
  | callCleanup
  | returned
  | exited
  | panicked
deriving DecidableEq, Repr

/-- The variables of `main` (`ctx`, `c`, `err`), the program point, the statements
executed so far and the world. -/
structure MainState where
  pc : Pc
  ctx : Option Nat
  c : Option (Container Value)
  err : Option DiError
  steps : List Stmt
  world : World

/-- The state in which `main` starts: `var ctx context.Context` is nil. -/
def MainState.init (w : World) : MainState :=
  { pc := Pc.callNew, ctx := none, c := none, err := none, steps := [], world := w }

/-- The value `di.Resolve(&ctx)` left in the variable `ctx`. -/
def ctxSlot : List (Arg Value) → Option Nat
  | [Arg.single (Value.context ctx)] => some ctx
  | _ => none

/-- One step of `main`.  `build` is the call `di.New(...)` of the program text and
`signalled` tells whether the context is cancelled by now: the receive
`<-ctx.Done()` blocks until it is. -/
def mainStep (build : World → Built Value × World) (signalled : Bool) (s : MainState) :
    MainState :=
  match s.pc with
  | Pc.callNew =>
    match build s.world with
    | (b, w) =>
      { s with pc := Pc.checkErr, ctx := ctxSlot b.slots, c := some b.container, err := b.err
               steps := s.steps ++ [Stmt.New], world := w }
  | Pc.checkErr =>
    match s.err with
    | some e =>
      { s with pc := Pc.exited, steps := s.steps ++ [Stmt.Fatal]
               world := s.world.emit (Event.Fatal e.Error) }
    | none => { s with pc := Pc.waitDone }
  | Pc.waitDone =>
    match s.ctx with
    | none => { s with pc := Pc.panicked }
    | some ctx =>
      if signalled then
        { s with pc := Pc.callCleanup, steps := s.steps ++ [Stmt.Recv]
                 world := s.world.emit (Event.Done ctx) }
      else s
  | Pc.callCleanup =>
    match s.c with
    | none => { s with pc := Pc.panicked }
    | some c =>
      match c.Cleanup s.world with
      | (c, w) =>
        { s with pc := Pc.returned, c := some c, steps := s.steps ++ [Stmt.Cleanup], world := w }
  | Pc.returned => s
  | Pc.exited => s
  | Pc.panicked => s

/-- The execution of `main` driven by the environment: one step for each element
of `signals`. -/
def mainRun (build : World → Built Value × World) : List Bool → MainState → MainState
  | [], s => s
  | signalled :: rest, s => mainRun build rest (mainStep build signalled s)

/-- `func main()`: the execution with the options of the program text. -/
def main (signals : List Bool) (w : World) : MainState :=
  mainRun (New mainOptions) signals (MainState.init w)

/-- The states of the process lifecycle. -/
inductive Lifecycle
  | Building
  | Running
  | ShuttingDown
  | Closed
deriving DecidableEq, Repr

/-- The position of a lifecycle state in `Building, Running, ShuttingDown, Closed`. -/
def Lifecycle.rank : Lifecycle → Nat
  | Lifecycle.Building => 0
  | Lifecycle.Running => 1
  | Lifecycle.ShuttingDown => 2
  | Lifecycle.Closed => 3

/-- The lifecycle state `main` is in: building until `di.New` has returned nil,
running while it waits for the cancellation, shutting down from the receive to the
return of `Cleanup`, closed after it.  A process ended by `log.Fatal` never left
the build. -/
def MainState.lifecycle (s : MainState) : Lifecycle :=
  match s.pc with
  | Pc.callNew => Lifecycle.Building
  | Pc.checkErr => Lifecycle.Building
  | Pc.exited => Lifecycle.Building
  | Pc.waitDone => Lifecycle.Running
  | Pc.panicked => if Stmt.Recv ∈ s.steps then Lifecycle.ShuttingDown else Lifecycle.Running
  | Pc.callCleanup => Lifecycle.ShuttingDown
  | Pc.returned => Lifecycle.Closed

/-- The options of `main` with the two controllers provided in the other order. -/
def swappedOptions : List (Directive Value) :=
  [ Directive.Provide provideStdLogger,
    Directive.Provide provideContext,
    Directive.Provide provideServer,
    Directive.Provide provideServeMux,
    Directive.Provide provideUserController,
    Directive.Provide provideOrderController,
    Directive.Invoke invokeStartServer,
    Directive.Resolve (Param.single "context.Context") ]

/-- Options that provide the context twice. -/
def duplicateOptions : List (Directive Value) :=
  [ Directive.Provide provideContext,
    Directive.Provide provideContext,
    Directive.Resolve (Param.single "context.Context") ]

/-- The identities whose constructors were run, in the order of the runs. -/
def constructed : List Event → List String
  | [] => []
  | Event.Construct id :: rest => id :: constructed rest
  | _ :: rest => constructed rest

/-- The routes of a handler table with what each handler writes for a request to
its own pattern, for an instance that is a mux. -/
def Value.routes : Value → Option (List (String × ResponseWriter))
  | Value.mux m =>
    some (m.entries.map fun e => (e.1, e.2 { status := none, body := "" } { path := e.1 }))
  | _ => none

/-- The container of `main` after its registrations and before any construction. -/
def registered : Container Value :=
  (registerAll (provides mainOptions) Container.empty (World.init fun _ => none)).2.1

/-- The depends-on edges that leave `source` through the given parameters: one to
every provider a parameter is answered by. -/
def edgesFrom (c : Container Value) (source : Ident) : List Param → List (Ident × Ident)
  | [] => []
  | param :: rest =>
    (c.lookup param.ident).map (fun p => (source, p.out)) ++ edgesFrom c source rest

/-- The depends-on edges of the providers in `ps`. -/
def providerEdges (c : Container Value) : List (Provider Value) → List (Ident × Ident)
  | [] => []
  | p :: ps => edgesFrom c p.out p.params ++ providerEdges c ps

/-- The depends-on edges of the bootstrap actions in `as`. -/
def actionEdges (c : Container Value) : List (Action Value) → List (Ident × Ident)
  | [] => []
  | a :: as => edgesFrom c a.name a.params ++ actionEdges c as

/-- The depends-on relation of the graph declared in `main`. -/
def mainEdges : List (Ident × Ident) :=
  actionEdges registered (invokes mainOptions) ++ providerEdges registered registered.providers

/-- The steps of the build of `main`, in order: six registrations, the depth-first
construction of the server for `StartServer`, the call of `StartServer`, the
construction of the context and its copy into `ctx`. -/
def buildTrace : List Event :=
  [ Event.Provide "*main.StdLogger", Event.Provide "context.Context",
    Event.Provide "*http.Server", Event.Provide "*http.ServeMux",
    Event.Provide "*main.OrderController", Event.Provide "*main.UserController",
    Event.Construct "*main.OrderController", Event.Construct "*main.UserController",
    Event.Construct "*http.ServeMux", Event.Construct "*http.Server",
    Event.Invoke "StartServer", Event.Go (Goroutine.listenAndServe 0),
    Event.Construct "context.Context", Event.Go (Goroutine.awaitSignal 0),
    Event.Resolve "context.Context" ]

/-- What holds of every state `main` reaches from the world `w0`: at each program
point, which statements have been executed and what `di.New` answered. -/
def MainInv (build : World → Built Value × World) (w0 : World) (s : MainState) : Prop :=
  match s.pc with
  | Pc.callNew => s.steps = [] ∧ s.world = w0
  | Pc.checkErr =>
    s.steps = [Stmt.New] ∧ s.err = (build w0).1.err ∧ s.world = (build w0).2
      ∧ s.ctx = ctxSlot (build w0).1.slots
  | Pc.exited =>
    s.steps = [Stmt.New, Stmt.Fatal]
      ∧ ∃ e, (build w0).1.err = some e
          ∧ s.world.trace = (build w0).2.trace ++ [Event.Fatal e.Error]
  | Pc.waitDone => s.steps = [Stmt.New] ∧ (build w0).1.err = none
  | Pc.callCleanup => s.steps = [Stmt.New, Stmt.Recv] ∧ (build w0).1.err = none
  | Pc.returned => s.steps = [Stmt.New, Stmt.Recv, Stmt.Cleanup] ∧ (build w0).1.err = none
  | Pc.panicked =>
    (s.steps = [Stmt.New] ∨ s.steps = [Stmt.New, Stmt.Recv]) ∧ (build w0).1.err = none

/-- What holds of the variables and the world in every state `main` reaches from the
world `w0`: what `ctx` and `c` hold, and which calls made the world what it is. -/
def MainVars (build : World → Built Value × World) (w0 : World) (s : MainState) : Prop :=
  match s.pc with
  | Pc.callNew => s.world = w0
  | Pc.checkErr =>
    s.world = (build w0).2 ∧ s.ctx = ctxSlot (build w0).1.slots
      ∧ s.c = some (build w0).1.container
  | Pc.waitDone =>
    s.world = (build w0).2 ∧ s.ctx = ctxSlot (build w0).1.slots
      ∧ s.c = some (build w0).1.container ∧ s.steps = [Stmt.New]
  | Pc.callCleanup =>
    ∃ ctx, ctxSlot (build w0).1.slots = some ctx
      ∧ s.world = (build w0).2.emit (Event.Done ctx)
      ∧ s.c = some (build w0).1.container
  | Pc.returned =>
    ∃ ctx, ctxSlot (build w0).1.slots = some ctx
      ∧ s.world = ((build w0).1.container.Cleanup ((build w0).2.emit (Event.Done ctx))).2
  | Pc.exited => True
  | Pc.panicked => ctxSlot (build w0).1.slots = none ∧ s.steps = [Stmt.New]

/-- No receive has returned and none is about to be followed by `Cleanup`. -/
def Waiting (s : MainState) : Prop :=
  Stmt.Recv ∉ s.steps ∧ s.pc ≠ Pc.callCleanup

end Tutorial

/-! ## Theorems -/

namespace Tutorial

open di

/-- The range loop of `NewServeMux` is the left fold of `RegisterRoutes` in which a
panic ends the fold. -/
theorem NewServeMux.range_eq_foldlM (controllers : List Controller) (mux : ServeMux) :
    NewServeMux.range controllers mux
      = controllers.foldlM (fun mux controller => controller.RegisterRoutes mux) mux := by
  induction controllers generalizing mux with
  | nil => rfl
  | cons controller rest ih =>
    cases h : controller.RegisterRoutes mux with
    | error p => simp [NewServeMux.range, h, bind, Except.bind]
    | ok m => simp [NewServeMux.range, h, ih, bind, Except.bind]

/-- When every call of `RegisterRoutes` returns, the loop returns the plain left
fold of the calls. -/
theorem NewServeMux.range_returning (fs : List (ServeMux → ServeMux)) (mux : ServeMux) :
    NewServeMux.range (fs.map fun f => { RegisterRoutes := fun m => Except.ok (f m) }) mux
      = Except.ok (fs.foldl (fun m f => f m) mux) := by
  induction fs generalizing mux with
  | nil => rfl
  | cons f rest ih => simp [NewServeMux.range, ih]

/-- Controllers that each register one entry, with patterns that are not empty, not
yet in the table and pairwise distinct, leave their entries behind the ones already
in the table, one per controller and in the order of the controllers. -/
theorem NewServeMux.range_entries (entries : List (String × HandlerFunc)) (mux : ServeMux)
    (hne : ∀ e ∈ entries, e.1 ≠ "")
    (hnd : (mux.patterns ++ entries.map Prod.fst).Nodup) :
    NewServeMux.range
        (entries.map fun e => { RegisterRoutes := fun m => m.HandleFunc e.1 (some e.2) }) mux
      = Except.ok ⟨mux.entries ++ entries⟩ := by
  induction entries generalizing mux with
  | nil => simp [NewServeMux.range]
  | cons e rest ih =>
    have he : e.1 ≠ "" := hne e (List.mem_cons_self _ _)
    have hnew : e.1 ∉ mux.patterns := by
      intro hmem
      have := List.nodup_append.mp hnd
      exact this.2.2 hmem (by simp)
    have hstep : mux.HandleFunc e.1 (some e.2) = Except.ok ⟨mux.entries ++ [e]⟩ := by
      simp [ServeMux.HandleFunc, ServeMux.Handle, he, hnew]
    simp only [List.map_cons, NewServeMux.range, hstep]
    rw [ih]
    · simp
    · intro x hx
      exact hne x (List.mem_cons_of_mem _ hx)
    · simpa [ServeMux.patterns, List.append_assoc] using hnd

/-- A call that panics ends the loop with its panic, whatever controllers follow. -/
theorem NewServeMux.range_panics (before after : List Controller) (c : Controller)
    (mux m : ServeMux) (p : Panic) (hb : NewServeMux.range before mux = Except.ok m)
    (hc : c.RegisterRoutes m = Except.error p) :
    NewServeMux.range (before ++ c :: after) mux = Except.error p := by
  induction before generalizing mux with
  | nil =>
    simp only [NewServeMux.range] at hb
    cases hb
    simp [NewServeMux.range, hc]
  | cons b rest ih =>
    simp only [List.cons_append, NewServeMux.range] at hb ⊢
    cases h : b.RegisterRoutes mux with
    | error q => simp [h] at hb
    | ok m1 =>
      simp only [h] at hb ⊢
      exact ih m1 hb

/-- C1, as amended: `NewServeMux` is the left fold of `RegisterRoutes` over the
controllers from the empty handler table, in which a panic ends the fold.  When
every call returns it returns the table of the plain left fold, the empty table for
no controllers; controllers that each register one entry, with patterns that are
not empty and pairwise distinct, leave exactly their entries, once each and in
order; and when a call panics, `NewServeMux` ends with that panic and calls no
controller after it. -/
theorem NewServeMux_is_left_fold_until_panic (controllers : List Controller) :
    NewServeMux controllers
        = controllers.foldlM (fun mux controller => controller.RegisterRoutes mux)
            ServeMux.empty
      ∧ NewServeMux [] = Except.ok ServeMux.empty
      ∧ (∀ fs : List (ServeMux → ServeMux),
          controllers = (fs.map fun f => { RegisterRoutes := fun m => Except.ok (f m) }) →
          NewServeMux controllers = Except.ok (fs.foldl (fun m f => f m) ServeMux.empty))
      ∧ (∀ entries : List (String × HandlerFunc),
          (∀ e ∈ entries, e.1 ≠ "") → (entries.map Prod.fst).Nodup →
          NewServeMux
              (entries.map fun e => { RegisterRoutes := fun m => m.HandleFunc e.1 (some e.2) })
            = Except.ok ⟨entries⟩)
      ∧ ∀ (before after : List Controller) (c : Controller) (m : ServeMux) (p : Panic),
          controllers = before ++ c :: after → NewServeMux before = Except.ok m →
          c.RegisterRoutes m = Except.error p → NewServeMux controllers = Except.error p := by
  refine ⟨NewServeMux.range_eq_foldlM controllers ServeMux.empty, rfl, ?_, ?_, ?_⟩
  · intro fs hfs
    rw [hfs]
    exact NewServeMux.range_returning fs ServeMux.empty
  · intro entries hne hnd
    have h := NewServeMux.range_entries entries ServeMux.empty hne
      (by simpa [ServeMux.patterns, ServeMux.empty] using hnd)
    simpa [NewServeMux, ServeMux.empty] using h
  · intro before after c m p hcs hb hc
    rw [hcs]
    exact NewServeMux.range_panics before after c ServeMux.empty m p hb hc

/-- The two controllers of the program, orders first, leave the two routes in that
order; and a second orders controller ends `NewServeMux` with the panic of its
registration, before the users controller that follows it is called. -/
theorem NewServeMux_is_left_fold_until_panic_witness :
    (([("/orders", NewOrderController.RetrieveOrders),
        ("/users", NewUserController.RetrieveUsers)] :
          List (String × HandlerFunc)).map Prod.fst).Nodup
      ∧ NewServeMux [NewOrderController.toController, NewUserController.toController]
          = Except.ok ⟨[("/orders", NewOrderController.RetrieveOrders),
              ("/users", NewUserController.RetrieveUsers)]⟩
      ∧ NewServeMux
            [NewOrderController.toController, NewOrderController.toController,
              NewUserController.toController]
          = Except.error (Panic.multipleRegistrations "/orders") :=
  ⟨by decide,
    (NewServeMux_is_left_fold_until_panic []).2.2.2.1
      [("/orders", NewOrderController.RetrieveOrders),
        ("/users", NewUserController.RetrieveUsers)]
      (by decide) (by decide),
    (NewServeMux_is_left_fold_until_panic
        [NewOrderController.toController, NewOrderController.toController,
          NewUserController.toController]).2.2.2.2
      [NewOrderController.toController] [NewUserController.toController]
      NewOrderController.toController
      ⟨[("/orders", NewOrderController.RetrieveOrders)]⟩
      (Panic.multipleRegistrations "/orders") rfl rfl rfl⟩

/-- C1, the claim as written fails: with the orders controller twice in the
sequence the second registration of "/orders" panics, so `NewServeMux` returns no
table. -/
theorem NewServeMux_returns_no_table_on_repeated_pattern :
    NewServeMux [NewOrderController.toController, NewOrderController.toController]
        = Except.error (Panic.multipleRegistrations "/orders")
      ∧ ¬ ∃ mux, NewServeMux [NewOrderController.toController, NewOrderController.toController]
          = Except.ok mux := by
  have h : NewServeMux [NewOrderController.toController, NewOrderController.toController]
      = Except.error (Panic.multipleRegistrations "/orders") := rfl
  refine ⟨h, ?_⟩
  rintro ⟨mux, hmux⟩
  rw [h] at hmux
  cases hmux

/-- The trace the cleanup closure of `NewServer` leaves, and the parts of the world
it does not touch. -/
theorem NewServer.cleanup_spec (server : Nat) (w : World) :
    (NewServer.cleanup server w).trace
        = w.trace ++ Event.Close server ::
            ((match w.closeResult server with
              | some err => [Event.Println ["server close error:", err]]
              | none => []) ++ [Event.Println ["server closed"]])
      ∧ (NewServer.cleanup server w).servers = w.servers
      ∧ (NewServer.cleanup server w).contexts = w.contexts
      ∧ (NewServer.cleanup server w).closeResult = w.closeResult := by
  unfold NewServer.cleanup Server.Close
  cases h : w.closeResult server <;> simp [World.emit, h]

/-- C8: the release function returned by `NewServer` is a total function of the
world with no error result; it calls `Close` on the server once, then logs
"server close error:" with the error exactly when `Close` answered one, then logs
"server closed". -/
theorem NewServer_cleanup_logs_and_returns (mux : ServeMux) (w0 w : World) :
    let server := (NewServer mux w0).1.1
    let cleanup := (NewServer mux w0).1.2
    (cleanup w).trace
        = w.trace ++ Event.Close server ::
            ((match w.closeResult server with
              | some err => [Event.Println ["server close error:", err]]
              | none => []) ++ [Event.Println ["server closed"]])
      ∧ ((∃ err, Event.Println ["server close error:", err] ∈ (cleanup w).trace.drop w.trace.length)
          ↔ w.closeResult server ≠ none)
      ∧ ((cleanup w).trace.drop w.trace.length).count (Event.Close server) = 1 := by
  intro server cleanup
  have h := (NewServer.cleanup_spec server w).1
  have hc : cleanup w = NewServer.cleanup server w := rfl
  rw [hc, h]
  refine ⟨rfl, ?_, ?_⟩
  · cases hr : w.closeResult server <;> simp
  · cases hr : w.closeResult server <;> simp [List.count_cons]

/-- C9: `NewServer` allocates a server that is new to the heap, with `Handler` equal
to the mux it was given and `Addr` equal to ":8080"; it leaves the servers already
there and the trace as they were, so it neither starts nor closes anything; and the
release function it returns calls `Close` on the returned server and on no other. -/
theorem NewServer_returns_server_for_mux (mux : ServeMux) (w : World) :
    let server := (NewServer mux w).1.1
    let cleanup := (NewServer mux w).1.2
    let w1 := (NewServer mux w).2
    w1.servers[server]? = some { Addr := ":8080", Handler := mux }
      ∧ w.servers[server]? = none
      ∧ (∀ q, q < server → w1.servers[q]? = w.servers[q]?)
      ∧ w1.trace = w.trace
      ∧ ∀ w2 : World, ∀ q, Event.Close q ∈ (cleanup w2).trace.drop w2.trace.length ↔ q = server := by
  intro server cleanup w1
  have hs : server = w.servers.length := rfl
  have hw : w1.servers = w.servers ++ [{ Addr := ":8080", Handler := mux }] := rfl
  refine ⟨?_, ?_, ?_, rfl, ?_⟩
  · rw [hw, hs]; simp
  · rw [hs]; simp
  · intro q hq
    rw [hw, List.getElem?_append_left (by omega)]
  · intro w2 q
    have hc : cleanup w2 = NewServer.cleanup server w2 := rfl
    rw [hc, (NewServer.cleanup_spec server w2).1]
    cases hr : w2.closeResult server <;> simp [eq_comm]

/-- The start state of `main` satisfies the invariant. -/
theorem MainInv.init (build : World → Built Value × World) (w0 : World) :
    MainInv build w0 (MainState.init w0) := by
  simp [MainInv, MainState.init]

/-- Every step of `main` keeps the invariant. -/
theorem MainInv.step (build : World → Built Value × World) (w0 : World) (signalled : Bool)
    (s : MainState) (h : MainInv build w0 s) : MainInv build w0 (mainStep build signalled s) := by
  obtain ⟨pc, ctx, c, err, steps, world⟩ := s
  cases pc <;> simp only [MainInv, mainStep] at h ⊢
  · obtain ⟨h1, h2⟩ := h
    subst h1 h2
    simp
  · obtain ⟨h1, h2, h3, h4⟩ := h
    subst h1 h2 h3 h4
    cases he : (build w0).1.err <;> simp [World.emit]
  · obtain ⟨h1, h2⟩ := h
    subst h1
    cases ctx with
    | none => simp [h2]
    | some n => cases signalled <;> simp [h2]
  · obtain ⟨h1, h2⟩ := h
    subst h1
    cases c with
    | none => simp [h2]
    | some c => simp [h2]
  · exact h
  · exact h
  · exact h

/-- Every state of an execution of `main` satisfies the invariant. -/
theorem MainInv.run (build : World → Built Value × World) (w0 : World) (signals : List Bool)
    (s : MainState) (h : MainInv build w0 s) : MainInv build w0 (mainRun build signals s) := by
  induction signals generalizing s with
  | nil => exact h
  | cons b rest ih => exact ih _ (MainInv.step build w0 b s h)

/-- The start state of `main` satisfies the invariant of the variables. -/
theorem MainVars.at_start (build : World → Built Value × World) (w0 : World) :
    MainVars build w0 (MainState.init w0) := by
  simp [MainVars, MainState.init]

/-- Every step of `main` keeps the invariant of the variables. -/
theorem MainVars.kept_by_step (build : World → Built Value × World) (w0 : World) (signalled : Bool)
    (s : MainState) (hi : MainInv build w0 s) (h : MainVars build w0 s) :
    MainVars build w0 (mainStep build signalled s) := by
  obtain ⟨pc, ctx, c, err, steps, world⟩ := s
  cases pc <;> simp only [MainVars, MainInv, mainStep] at h hi ⊢
  · subst h
    simp
  · obtain ⟨h1, h2, h3⟩ := h
    subst h1 h2 h3
    cases err with
    | none => simpa using hi.1
    | some e => simp
  · obtain ⟨h1, h2, h3, h4⟩ := h
    subst h1 h3 h4
    cases ctx with
    | none => simp [← h2]
    | some n => cases signalled <;> simp [← h2]
  · obtain ⟨n, h1, h2, h3⟩ := h
    subst h2 h3
    simp [h1]
  · exact h
  · exact h

/-- Every state of an execution of `main` satisfies the invariant of the variables. -/
theorem MainVars.kept_by_run (build : World → Built Value × World) (w0 : World) (signals : List Bool)
    (s : MainState) (hi : MainInv build w0 s) (h : MainVars build w0 s) :
    MainVars build w0 (mainRun build signals s) := by
  induction signals generalizing s with
  | nil => exact h
  | cons b rest ih =>
    exact ih _ (MainInv.step build w0 b s hi) (MainVars.kept_by_step build w0 b s hi h)

/-- A step taken while the context is not cancelled leaves `main` without a returned
receive. -/
theorem Waiting.quiet_step (build : World → Built Value × World) (s : MainState)
    (h : Waiting s) : Waiting (mainStep build false s) := by
  obtain ⟨pc, ctx, c, err, steps, world⟩ := s
  obtain ⟨h1, h2⟩ := h
  cases pc <;> simp only [Waiting, mainStep] at h1 h2 ⊢
  · simp [h1]
  · cases err <;> simp [h1]
  · cases ctx <;> simp [h1]
  · exact absurd rfl h2
  · exact ⟨h1, h2⟩
  · exact ⟨h1, h2⟩
  · exact ⟨h1, h2⟩

/-- The first two steps of `main`, the call of `di.New` and the test of its error, do
not depend on the cancellation. -/
theorem Waiting.early_step (build : World → Built Value × World) (signalled : Bool)
    (s : MainState) (hpc : s.pc = Pc.callNew ∨ s.pc = Pc.checkErr) (h : Waiting s) :
    Waiting (mainStep build signalled s) := by
  obtain ⟨pc, ctx, c, err, steps, world⟩ := s
  obtain ⟨h1, h2⟩ := h
  simp only [] at hpc
  rcases hpc with rfl | rfl <;> simp only [Waiting, mainStep] at h1 h2 ⊢
  · simp [h1]
  · cases err <;> simp [h1]

/-- An execution in which the context is never cancelled has no returned receive. -/
theorem Waiting.quiet_run (build : World → Built Value × World) (signals : List Bool)
    (s : MainState) (hq : true ∉ signals) (h : Waiting s) :
    Waiting (mainRun build signals s) := by
  induction signals generalizing s with
  | nil => exact h
  | cons b rest ih =>
    have hb : b = false := by
      cases b
      · rfl
      · exact absurd (List.mem_cons_self _ _) hq
    subst hb
    exact ih _ (fun hm => hq (List.mem_cons_of_mem _ hm)) (Waiting.quiet_step build s h)

/-- The receive returns only when the context is cancelled while `main` waits: not
before the third step. -/
theorem recv_needs_signal (build : World → Built Value × World) (w0 : World)
    (signals : List Bool) (hq : true ∉ signals.drop 2) :
    Stmt.Recv ∉ (mainRun build signals (MainState.init w0)).steps := by
  have h0 : Waiting (MainState.init w0) := by simp [Waiting, MainState.init]
  match signals, hq with
  | [], _ => exact h0.1
  | [a], _ => exact (Waiting.early_step build a _ (Or.inl rfl) h0).1
  | a :: b :: rest, hq =>
    have h1 := Waiting.early_step build a _ (Or.inl rfl) h0
    have hpc : (mainStep build a (MainState.init w0)).pc = Pc.checkErr := by
      simp [mainStep, MainState.init]
    have h2 := Waiting.early_step build b _ (Or.inr hpc) h1
    exact (Waiting.quiet_run build rest _ (by simpa using hq) h2).1

/-- A statement that was executed stays executed. -/
theorem steps_grow (build : World → Built Value × World) (x : Stmt) (signals : List Bool)
    (s : MainState) (h : x ∈ s.steps) : x ∈ (mainRun build signals s).steps := by
  induction signals generalizing s with
  | nil => exact h
  | cons b rest ih =>
    apply ih
    obtain ⟨pc, ctx, c, err, steps, world⟩ := s
    simp only [] at h
    cases pc <;> simp only [mainStep]
    · simp [h]
    · cases err <;> simp [h]
    · cases ctx with
      | none => simp [h]
      | some n => cases b <;> simp [h]
    · cases c <;> simp [h]
    · exact h
    · exact h
    · exact h

/-- Once `main` waits with `ctx` assigned, a cancellation makes the receive return. -/
theorem recv_on_signal (build : World → Built Value × World) (signals : List Bool)
    (s : MainState) (ctx : Nat) (hpc : s.pc = Pc.waitDone) (hctx : s.ctx = some ctx)
    (ht : true ∈ signals) : Stmt.Recv ∈ (mainRun build signals s).steps := by
  induction signals generalizing s with
  | nil => simp at ht
  | cons b rest ih =>
    obtain ⟨pc, c0, c, err, steps, world⟩ := s
    simp only [] at hpc hctx
    subst hpc hctx
    cases b with
    | true =>
      simp only [mainRun]
      apply steps_grow
      simp [mainStep]
    | false =>
      have ht2 : true ∈ rest := by simpa using ht
      have hs : mainStep build false
          { pc := Pc.waitDone, ctx := some ctx, c := c, err := err, steps := steps,
            world := world }
          = { pc := Pc.waitDone, ctx := some ctx, c := c, err := err, steps := steps,
              world := world } := by
        simp [mainStep]
      simp only [mainRun, hs]
      exact ih _ rfl rfl ht2

/-- In every execution of `main` the statements come in the order of the program
text, `Cleanup` at most once and last, and every step keeps the lifecycle state or
moves it to the next one. -/
theorem lifecycle_of_steps (build : World → Built Value × World) (w0 : World)
    (signals : List Bool) :
    let s := mainRun build signals (MainState.init w0)
    (Stmt.Cleanup ∈ s.steps →
        (build w0).1.err = none ∧ s.steps = [Stmt.New, Stmt.Recv, Stmt.Cleanup])
      ∧ s.steps.count Stmt.Cleanup ≤ 1
      ∧ ∀ signalled : Bool,
          s.lifecycle.rank ≤ (mainStep build signalled s).lifecycle.rank
            ∧ (mainStep build signalled s).lifecycle.rank ≤ s.lifecycle.rank + 1 := by
  intro s
  have h : MainInv build w0 s := MainInv.run build w0 signals _ (MainInv.init build w0)
  generalize s = t at h
  obtain ⟨pc, ctx, c, err, steps, world⟩ := t
  cases pc <;> simp only [MainInv] at h
  · obtain ⟨h1, -⟩ := h
    subst h1
    simp [mainStep, MainState.lifecycle, Lifecycle.rank]
  · obtain ⟨h1, -⟩ := h
    subst h1
    refine ⟨by simp, by simp, fun b => ?_⟩
    cases err <;> simp [mainStep, MainState.lifecycle, Lifecycle.rank]
  · obtain ⟨h1, -⟩ := h
    subst h1
    refine ⟨by simp, by simp, fun b => ?_⟩
    cases ctx with
    | none => simp [mainStep, MainState.lifecycle, Lifecycle.rank]
    | some n => cases b <;> simp [mainStep, MainState.lifecycle, Lifecycle.rank]
  · obtain ⟨h1, -⟩ := h
    subst h1
    refine ⟨by simp, by simp, fun b => ?_⟩
    cases c <;> simp [mainStep, MainState.lifecycle, Lifecycle.rank]
  · obtain ⟨h1, h2⟩ := h
    subst h1
    simp [mainStep, MainState.lifecycle, Lifecycle.rank, h2]
  · obtain ⟨h1, -⟩ := h
    subst h1
    simp [mainStep, MainState.lifecycle, Lifecycle.rank]
  · obtain ⟨h1 | h1, -⟩ := h <;> subst h1 <;>
      simp [mainStep, MainState.lifecycle, Lifecycle.rank]

/-- When `di.New` answered a nil error and assigned `ctx`, a cancellation from the
third step on makes the receive return. -/
theorem recv_after_build (build : World → Built Value × World) (w0 : World)
    (signals : List Bool) (n : Nat) (he : (build w0).1.err = none)
    (hn : ctxSlot (build w0).1.slots = some n) (ht : true ∈ signals.drop 2) :
    Stmt.Recv ∈ (mainRun build signals (MainState.init w0)).steps := by
  match signals, ht with
  | a :: b :: rest, ht =>
    have ht2 : true ∈ rest := by simpa using ht
    have hrun : mainRun build (a :: b :: rest) (MainState.init w0)
        = mainRun build rest
            (mainStep build b (mainStep build a (MainState.init w0))) := rfl
    rw [hrun]
    apply recv_on_signal build rest _ n _ _ ht2
    · simp [mainStep, MainState.init, he]
    · simp [mainStep, MainState.init, he, hn]

/-- In a state `main` reaches, a returned receive means a nil error and an assigned
`ctx`, and a called `Cleanup` means the world is what `Container.Cleanup` left. -/
theorem reached_after_recv (build : World → Built Value × World) (w0 : World)
    (t : MainState) (h : MainInv build w0 t) (hv : MainVars build w0 t) :
    (Stmt.Recv ∈ t.steps →
        (build w0).1.err = none ∧ ∃ ctx, ctxSlot (build w0).1.slots = some ctx)
      ∧ (Stmt.Cleanup ∈ t.steps →
          ∃ ctx, ctxSlot (build w0).1.slots = some ctx
            ∧ t.world
              = ((build w0).1.container.Cleanup ((build w0).2.emit (Event.Done ctx))).2) := by
  obtain ⟨pc, ctx, c, err, steps, world⟩ := t
  cases pc <;> simp only [MainInv, MainVars] at h hv
  · obtain ⟨h1, -⟩ := h
    subst h1
    simp
  · obtain ⟨h1, -⟩ := h
    subst h1
    simp
  · obtain ⟨h1, -⟩ := h
    subst h1
    simp
  · obtain ⟨n, hn, -⟩ := hv
    obtain ⟨h1, h2⟩ := h
    subst h1
    exact ⟨fun _ => ⟨h2, n, hn⟩, by simp⟩
  · obtain ⟨n, hn, hw⟩ := hv
    exact ⟨fun _ => ⟨h.2, n, hn⟩, fun _ => ⟨n, hn, hw⟩⟩
  · obtain ⟨h1, -⟩ := h
    subst h1
    simp
  · obtain ⟨-, h1⟩ := hv
    subst h1
    simp

/-- C6: in every execution of `main`, whatever `di.New` does and whenever the
cancellation arrives: `Cleanup` has been called only if `di.New` answered a nil
error and the receive on `ctx.Done()` returned before it, and it is called at most
once; the receive has returned exactly when `di.New` answered a nil error, assigned
`ctx`, and the context was cancelled while `main` waited, so without a cancellation
there is neither a returned receive nor a `Cleanup`; after `Cleanup` the world is
the one `Container.Cleanup` leaves from the world of the build followed by the
context's done signal; and every step keeps the lifecycle state or moves it to the
next one of Building, Running, ShuttingDown, Closed. -/
theorem main_follows_lifecycle (build : World → Built Value × World) (w0 : World)
    (signals : List Bool) :
    let s := mainRun build signals (MainState.init w0)
    (Stmt.Cleanup ∈ s.steps →
        (build w0).1.err = none ∧ s.steps = [Stmt.New, Stmt.Recv, Stmt.Cleanup])
      ∧ s.steps.count Stmt.Cleanup ≤ 1
      ∧ (∀ signalled : Bool,
          s.lifecycle.rank ≤ (mainStep build signalled s).lifecycle.rank
            ∧ (mainStep build signalled s).lifecycle.rank ≤ s.lifecycle.rank + 1)
      ∧ (Stmt.Recv ∈ s.steps ↔
          (build w0).1.err = none ∧ (∃ ctx, ctxSlot (build w0).1.slots = some ctx)
            ∧ true ∈ signals.drop 2)
      ∧ (true ∉ signals.drop 2 → Stmt.Recv ∉ s.steps ∧ Stmt.Cleanup ∉ s.steps)
      ∧ (Stmt.Cleanup ∈ s.steps →
          ∃ ctx, ctxSlot (build w0).1.slots = some ctx
            ∧ s.world
              = ((build w0).1.container.Cleanup ((build w0).2.emit (Event.Done ctx))).2) := by
  intro s
  have h : MainInv build w0 s := MainInv.run build w0 signals _ (MainInv.init build w0)
  have hv : MainVars build w0 s :=
    MainVars.kept_by_run build w0 signals _ (MainInv.init build w0) (MainVars.at_start build w0)
  obtain ⟨hA, hB, hC⟩ := lifecycle_of_steps build w0 signals
  obtain ⟨hR, hW⟩ := reached_after_recv build w0 s h hv
  have hquiet := recv_needs_signal build w0 signals
  refine ⟨hA, hB, hC, ⟨fun hr => ?_, fun hr => ?_⟩, fun hq => ⟨hquiet hq, fun hc => ?_⟩, hW⟩
  · obtain ⟨he, hctx⟩ := hR hr
    refine ⟨he, hctx, ?_⟩
    by_contra hq
    exact hquiet hq hr
  · obtain ⟨he, ⟨n, hn⟩, ht⟩ := hr
    exact recv_after_build build w0 signals n he hn ht
  · have hsteps := (hA hc).2
    apply hquiet hq
    show Stmt.Recv ∈ s.steps
    rw [hsteps]
    simp

/-- The execution of the program text, cancelled while it waits, ends after
`Cleanup` with the three statements in order and with the build, the done signal
and the release of the server in its trace; when no cancellation comes it stays
at the receive with only `di.New` executed. -/
theorem main_follows_lifecycle_witness :
    Stmt.Cleanup ∈ (main [false, false, true, false] (World.init fun _ => none)).steps
      ∧ ((New mainOptions (World.init fun _ => none)).1.err = none
          ∧ (main [false, false, true, false] (World.init fun _ => none)).steps
              = [Stmt.New, Stmt.Recv, Stmt.Cleanup])
      ∧ (main [false, false, true, false] (World.init fun _ => none)).world.trace
          = buildTrace ++ [Event.Done 0, Event.Release "*http.Server", Event.Close 0,
              Event.Println ["server closed"]]
      ∧ true ∉ [true, true, false, false].drop 2
      ∧ (Stmt.Recv ∉ (main [true, true, false, false] (World.init fun _ => none)).steps
          ∧ Stmt.Cleanup ∉ (main [true, true, false, false] (World.init fun _ => none)).steps)
      ∧ (main [true, true, false, false] (World.init fun _ => none)).steps = [Stmt.New] :=
  ⟨by decide,
    (main_follows_lifecycle (New mainOptions) (World.init fun _ => none)
      [false, false, true, false]).1 (by decide),
    by decide, by decide,
    (main_follows_lifecycle (New mainOptions) (World.init fun _ => none)
      [true, true, false, false]).2.2.2.2.1 (by decide),
    by decide⟩

/-- C7: when `di.New` answers an error, `main` calls `log.Fatal` with it and the
process ends: it never waits on `ctx.Done()` and never calls `Cleanup`; and `main`
comes to the wait on `ctx.Done()` in some execution exactly when `di.New` answered
a nil error. -/
theorem main_aborts_on_build_error (build : World → Built Value × World) (w0 : World) :
    (∀ e, (build w0).1.err = some e → ∀ signals : List Bool,
        Stmt.Recv ∉ (mainRun build signals (MainState.init w0)).steps
          ∧ Stmt.Cleanup ∉ (mainRun build signals (MainState.init w0)).steps
          ∧ (mainRun build signals (MainState.init w0)).pc ≠ Pc.waitDone
          ∧ (2 ≤ signals.length →
              (mainRun build signals (MainState.init w0)).pc = Pc.exited
                ∧ (mainRun build signals (MainState.init w0)).steps = [Stmt.New, Stmt.Fatal]
                ∧ (mainRun build signals (MainState.init w0)).world.trace
                    = (build w0).2.trace ++ [Event.Fatal e.Error]))
      ∧ ((∃ signals : List Bool, (mainRun build signals (MainState.init w0)).pc = Pc.waitDone)
          ↔ (build w0).1.err = none) := by
  constructor
  · intro e he signals
    have h : MainInv build w0 (mainRun build signals (MainState.init w0)) :=
      MainInv.run build w0 signals _ (MainInv.init build w0)
    have hlen : 2 ≤ signals.length →
        (mainRun build signals (MainState.init w0)).pc = Pc.exited := by
      intro h2
      match signals, h2 with
      | a :: b :: rest, _ =>
        have hex : (mainRun build [a, b] (MainState.init w0)).pc = Pc.exited := by
          simp [mainRun, mainStep, MainState.init, he]
        have hstay : ∀ (l : List Bool) (t : MainState), t.pc = Pc.exited →
            (mainRun build l t).pc = Pc.exited := by
          intro l
          induction l with
          | nil => intro t ht; exact ht
          | cons x xs ih =>
            intro t ht
            apply ih
            simp [mainStep, ht]
        exact hstay rest _ hex
    generalize mainRun build signals (MainState.init w0) = t at h hlen
    obtain ⟨pc, ctx, c, err, steps, world⟩ := t
    cases pc <;> simp only [MainInv] at h <;> simp only [] at hlen
    · obtain ⟨h1, -⟩ := h
      subst h1
      refine ⟨by simp, by simp, by simp, fun h2 => ?_⟩
      exact absurd (hlen h2) (by simp)
    · obtain ⟨h1, -⟩ := h
      subst h1
      refine ⟨by simp, by simp, by simp, fun h2 => ?_⟩
      exact absurd (hlen h2) (by simp)
    · exact absurd h.2 (by simp [he])
    · exact absurd h.2 (by simp [he])
    · exact absurd h.2 (by simp [he])
    · obtain ⟨h1, e2, h2, h3⟩ := h
      subst h1
      rw [he] at h2
      cases h2
      exact ⟨by simp, by simp, by simp, fun _ => ⟨rfl, rfl, h3⟩⟩
    · exact absurd h.2 (by simp [he])
  · constructor
    · rintro ⟨signals, hpc⟩
      have h : MainInv build w0 (mainRun build signals (MainState.init w0)) :=
        MainInv.run build w0 signals _ (MainInv.init build w0)
      generalize mainRun build signals (MainState.init w0) = t at h hpc
      obtain ⟨pc, ctx, c, err, steps, world⟩ := t
      simp only [] at hpc
      subst hpc
      exact h.2
    · intro he
      exact ⟨[false, false], by simp [mainRun, mainStep, MainState.init, he]⟩

end Tutorial

namespace di

open Tutorial

variable {V : Type}

/-- Storing a constructed instance keeps cache and cleanup stack in step. -/
theorem Container.store_ordered (c : Container V) (id : Ident) (v : V)
    (release : Option Release) (h : c.Ordered) : (c.store id v release).Ordered := by
  obtain ⟨h1, h2, h3⟩ := h
  refine ⟨?_, ?_, ?_⟩
  · cases release <;> simp [Container.store, Instance.pending, h1, h2]
  · simp [Container.store, h2]
  · simp [Container.store, h2, h3, List.range_succ]

/-- Resolving a list of providers keeps the order if resolving one does. -/
theorem resolveAll_ordered (recur : Provider V → List Ident → Container V → World → Res V V)
    (hrec : ∀ p path c w, c.Ordered → (recur p path c w).2.1.Ordered)
    (path : List Ident) (ps : List (Provider V)) (c : Container V) (w : World)
    (hc : c.Ordered) : (resolveAll recur path ps c w).2.1.Ordered := by
  induction ps generalizing c w with
  | nil => simpa [resolveAll] using hc
  | cons p ps ih =>
    have h1 := hrec p path c w hc
    unfold resolveAll
    rcases h : recur p path c w with ⟨r, c1, w1⟩
    rw [h] at h1
    cases r with
    | error e => simpa using h1
    | ok v =>
      have h2 := ih c1 w1 h1
      simp only []
      rcases h' : resolveAll recur path ps c1 w1 with ⟨r2, c2, w2⟩
      rw [h'] at h2
      cases r2 <;> simpa using h2

/-- Resolving one parameter keeps the order if resolving one provider does. -/
theorem resolveParam_ordered (recur : Provider V → List Ident → Container V → World → Res V V)
    (hrec : ∀ p path c w, c.Ordered → (recur p path c w).2.1.Ordered)
    (path : List Ident) (param : Param) (c : Container V) (w : World)
    (hc : c.Ordered) : (resolveParam recur path param c w).2.1.Ordered := by
  cases param with
  | single id =>
    unfold resolveParam
    simp only []
    split
    · rename_i p _
      have h1 := hrec p path c w hc
      rcases h : recur p path c w with ⟨r, c1, w1⟩
      rw [h] at h1
      cases r <;> simpa using h1
    · simpa using hc
  | collection cap =>
    unfold resolveParam
    simp only []
    have h1 := resolveAll_ordered recur hrec path (c.lookup cap) c w hc
    rcases h : resolveAll recur path (c.lookup cap) c w with ⟨r, c1, w1⟩
    rw [h] at h1
    cases r <;> simpa using h1

/-- Resolving a parameter list keeps the order if resolving one provider does. -/
theorem resolveParams_ordered (recur : Provider V → List Ident → Container V → World → Res V V)
    (hrec : ∀ p path c w, c.Ordered → (recur p path c w).2.1.Ordered)
    (path : List Ident) (params : List Param) (c : Container V) (w : World)
    (hc : c.Ordered) : (resolveParams recur path params c w).2.1.Ordered := by
  induction params generalizing c w with
  | nil => simpa [resolveParams] using hc
  | cons param rest ih =>
    have h1 := resolveParam_ordered recur hrec path param c w hc
    unfold resolveParams
    rcases h : resolveParam recur path param c w with ⟨r, c1, w1⟩
    rw [h] at h1
    cases r with
    | error e => simpa using h1
    | ok a =>
      have h2 := ih c1 w1 h1
      simp only []
      rcases h' : resolveParams recur path rest c1 w1 with ⟨r2, c2, w2⟩
      rw [h'] at h2
      cases r2 <;> simpa using h2

/-- The resolver keeps cache and cleanup stack in step, at every depth bound. -/
theorem resolveProvider_ordered (fuel : Nat) (p : Provider V) (path : List Ident)
    (c : Container V) (w : World) (hc : c.Ordered) :
    (resolveProvider fuel p path c w).2.1.Ordered := by
  induction fuel generalizing p path c w with
  | zero => simpa [resolveProvider] using hc
  | succ fuel ih =>
    unfold resolveProvider
    cases hcache : c.cached p.out with
    | some v => simpa using hc
    | none =>
      simp only []
      split
      · simpa using hc
      · have h1 := resolveParams_ordered (resolveProvider fuel) ih (p.out :: path) p.params c w hc
        rcases h : resolveParams (resolveProvider fuel) (p.out :: path) p.params c w
          with ⟨r, c1, w1⟩
        rw [h] at h1
        cases r with
        | error e => simpa using h1
        | ok args =>
          simp only []
          rcases h' : p.construct args (w1.emit (Event.Construct p.out)) with ⟨r2, w2⟩
          cases r2 with
          | error cause => simpa using h1
          | ok vr =>
            obtain ⟨v, release⟩ := vr
            simpa using Container.store_ordered c1 p.out v release h1

/-- Recording providers touches neither the cache nor the cleanup stack. -/
theorem registerAll_ordered (ps : List (Provider V)) (c : Container V) (w : World)
    (hc : c.Ordered) : (registerAll ps c w).2.1.Ordered := by
  induction ps generalizing c w with
  | nil => simpa [registerAll] using hc
  | cons p ps ih =>
    by_cases hany : (c.providers.any fun q => q.out == p.out) = true
    · simpa [registerAll, Container.register, hany] using hc
    · simp only [registerAll, Container.register, hany]
      exact ih _ _ hc

/-- An invoke keeps cache and cleanup stack in step. -/
theorem Container.invoke_ordered (c : Container V) (a : Action V) (w : World)
    (hc : c.Ordered) : (c.invoke a w).2.1.Ordered := by
  have h1 := resolveParams_ordered (resolveProvider c.fuel)
    (fun p path c1 w1 h => resolveProvider_ordered c.fuel p path c1 w1 h) [] a.params c w hc
  unfold Container.invoke
  rcases h : resolveParams (resolveProvider c.fuel) [] a.params c w with ⟨r, c1, w1⟩
  rw [h] at h1
  cases r <;> simpa using h1

/-- The invoke phase keeps cache and cleanup stack in step. -/
theorem invokeAll_ordered (as : List (Action V)) (c : Container V) (w : World)
    (hc : c.Ordered) : (invokeAll as c w).2.1.Ordered := by
  induction as generalizing c w with
  | nil => simpa [invokeAll] using hc
  | cons a as ih =>
    have h1 := Container.invoke_ordered c a w hc
    unfold invokeAll
    rcases h : c.invoke a w with ⟨r, c1, w1⟩
    rw [h] at h1
    cases r with
    | error e => simpa using h1
    | ok u => exact ih c1 w1 h1

/-- A resolve keeps cache and cleanup stack in step. -/
theorem Container.resolve_ordered (c : Container V) (t : Param) (w : World)
    (hc : c.Ordered) : (c.resolve t w).2.1.Ordered :=
  resolveParam_ordered (resolveProvider c.fuel)
    (fun p path c1 w1 h => resolveProvider_ordered c.fuel p path c1 w1 h) [] t c w hc

/-- The resolve phase keeps cache and cleanup stack in step. -/
theorem resolveSlots_ordered (ts : List Param) (c : Container V) (w : World)
    (hc : c.Ordered) : (resolveSlots ts c w).2.1.Ordered := by
  induction ts generalizing c w with
  | nil => simpa [resolveSlots] using hc
  | cons t ts ih =>
    have h1 := Container.resolve_ordered c t w hc
    unfold resolveSlots
    rcases h : c.resolve t w with ⟨r, c1, w1⟩
    rw [h] at h1
    cases r with
    | error e => simpa using h1
    | ok a =>
      have h2 := ih c1 (w1.emit (Event.Resolve t.ident)) h1
      simp only []
      rcases h' : resolveSlots ts c1 (w1.emit (Event.Resolve t.ident)) with ⟨r2, c2, w2⟩
      rw [h'] at h2
      cases r2 <;> simpa using h2

/-- The container `di.New` hands back, with or without an error, has its cache and
its cleanup stack in step. -/
theorem New_ordered (options : List (Directive V)) (w : World) :
    (New options w).1.container.Ordered := by
  have h0 : (Container.empty : Container V).Ordered := by
    simp [Container.Ordered, Container.empty]
  have h1 := registerAll_ordered (provides options) Container.empty w h0
  unfold New
  rcases h : registerAll (provides options) Container.empty w with ⟨r, c1, w1⟩
  rw [h] at h1
  cases r with
  | error e => simpa using h1
  | ok u =>
    have h2 := invokeAll_ordered (invokes options) c1 w1 h1
    simp only []
    rcases h' : invokeAll (invokes options) c1 w1 with ⟨r2, c2, w2⟩
    rw [h'] at h2
    cases r2 with
    | error e => simpa using h2
    | ok u2 =>
      have h3 := resolveSlots_ordered (resolves options) c2 w2 h2
      simp only []
      rcases h'' : resolveSlots (resolves options) c2 w2 with ⟨r3, c3, w3⟩
      rw [h''] at h3
      cases r3 <;> simpa using h3

/-- Running the cleanup stack calls its release functions from the top down. -/
theorem runCleanup_eq_foldl (stack : List Pending) (w : World) :
    runCleanup stack w
      = stack.foldl (fun w e => e.release (w.emit (Event.Release e.id))) w := by
  induction stack generalizing w with
  | nil => rfl
  | cons e rest ih => simp [runCleanup, ih]

/-- A provider whose instance is cached is answered from the cache: the container
and the world stay as they are. -/
theorem resolveProvider_cached (fuel : Nat) (p : Provider V) (path : List Ident)
    (c : Container V) (w : World) (v : V) (h : c.cached p.out = some v) :
    resolveProvider (fuel + 1) p path c w = (Except.ok v, c, w) := by
  simp [resolveProvider, h]

end di

namespace Tutorial

open di

/-- C2: the container built by `main`, with `NewOrderController` provided before
`NewUserController` and both bound to `Controller`, holds a mux whose routes are
exactly "/orders" and "/users", in that order and each with its own handler; the
mux is the handler of the one server; each of the two constructors ran once; and
with the two provided in the other order the routes come in the other order. -/
theorem main_registers_orders_then_users (closeResult : Nat → Option String) :
    ((New mainOptions (World.init closeResult)).1.container.cached "*http.ServeMux").bind
          Value.routes
        = some [("/orders", { status := some 200, body := "Orders" }),
                ("/users", { status := some 200, body := "Users" })]
      ∧ (New mainOptions (World.init closeResult)).2.servers.map
            (fun s => (s.Addr, s.Handler.patterns))
          = [(":8080", ["/orders", "/users"])]
      ∧ (constructed (New mainOptions (World.init closeResult)).2.trace).count
            "*main.OrderController" = 1
      ∧ (constructed (New mainOptions (World.init closeResult)).2.trace).count
            "*main.UserController" = 1
      ∧ (registered.lookup "main.Controller").map (fun p => p.out)
          = ["*main.OrderController", "*main.UserController"]
      ∧ ((New swappedOptions (World.init closeResult)).1.container.cached "*http.ServeMux").bind
            Value.routes
          = some [("/users", { status := some 200, body := "Users" }),
                  ("/orders", { status := some 200, body := "Orders" })] := by
  have hc : constructed (New mainOptions (World.init closeResult)).2.trace
      = ["*main.OrderController", "*main.UserController", "*http.ServeMux", "*http.Server",
          "context.Context"] := rfl
  refine ⟨rfl, rfl, ?_, ?_, rfl, rfl⟩
  · rw [hc]; decide
  · rw [hc]; decide

/-- C3: in the build of `main` the constructors that run are those of the two
controllers, the mux, the server and the context, each once, and no constructor
runs twice; entering the graph again for the server, the mux or the context after
the build runs nothing and changes nothing in the world; and in any container a
provider whose instance is cached is answered from the cache with the container
and the world unchanged. -/
theorem main_constructs_at_most_once (closeResult : Nat → Option String) :
    constructed (New mainOptions (World.init closeResult)).2.trace
        = ["*main.OrderController", "*main.UserController", "*http.ServeMux", "*http.Server",
            "context.Context"]
      ∧ (∀ id, (New mainOptions (World.init closeResult)).2.trace.count (Event.Construct id) ≤ 1)
      ∧ (∀ target ∈ [Param.single "*http.Server", Param.single "*http.ServeMux",
            Param.single "context.Context", Param.collection "main.Controller"],
          ((New mainOptions (World.init closeResult)).1.container.resolve target
              (New mainOptions (World.init closeResult)).2).2.2.trace
            = (New mainOptions (World.init closeResult)).2.trace)
      ∧ ∀ (fuel : Nat) (p : Provider Value) (path : List Ident) (c : Container Value)
          (w : World) (v : Value),
          c.cached p.out = some v → resolveProvider (fuel + 1) p path c w = (Except.ok v, c, w) := by
  refine ⟨rfl, ?_, ?_, fun fuel p path c w v h => resolveProvider_cached fuel p path c w v h⟩
  · have ht : (New mainOptions (World.init closeResult)).2.trace = buildTrace := rfl
    have hn : buildTrace.Nodup := by decide
    rw [ht]
    exact fun id => List.nodup_iff_count_le_one.mp hn (Event.Construct id)
  · intro target ht
    simp only [List.mem_cons, List.mem_singleton, List.not_mem_nil, or_false] at ht
    rcases ht with rfl | rfl | rfl | rfl <;> rfl

/-- The server of the built container is cached, and resolving its provider again
answers it with the container and the world unchanged. -/
theorem main_constructs_at_most_once_witness :
    (New mainOptions (World.init fun _ => none)).1.container.cached provideServer.out
        = some (Value.server 0)
      ∧ resolveProvider (0 + 1) provideServer []
            (New mainOptions (World.init fun _ => none)).1.container
            (New mainOptions (World.init fun _ => none)).2
          = (Except.ok (Value.server 0),
              (New mainOptions (World.init fun _ => none)).1.container,
              (New mainOptions (World.init fun _ => none)).2) :=
  ⟨rfl, (main_constructs_at_most_once fun _ => none).2.2.2 0 provideServer [] _ _ _ rfl⟩

end Tutorial

namespace Tutorial

open di

/-- C4: for every list of options, the container `di.New` hands back has its cache
in construction order and `Cleanup` calls the release functions of the cached
instances in the reverse of that order, passing over the instances that came
without one, empties the stack, and does nothing when called again; for `main`,
only the server came with a release function, and `Cleanup` calls it once: one
`Close` on the server, the error logged if there is one, then "server closed". -/
theorem Cleanup_calls_releases_in_reverse (closeResult : Nat → Option String) :
    (∀ (V : Type) (options : List (Directive V)) (w w1 w2 : World),
        ((New options w).1.container.cache.map fun e => e.seq)
            = List.range (New options w).1.container.cache.length
          ∧ ((New options w).1.container.Cleanup w1).2
              = ((New options w).1.container.cache.filterMap Instance.pending).reverse.foldl
                  (fun w e => e.release (w.emit (Event.Release e.id))) w1
          ∧ ((New options w).1.container.Cleanup w1).1.cleanups = []
          ∧ (((New options w).1.container.Cleanup w1).1.Cleanup w2).2 = w2)
      ∧ ((New mainOptions (World.init closeResult)).1.container.cache.map
            fun e => (e.id, e.seq, e.release.isSome))
          = [("*main.OrderController", 0, false), ("*main.UserController", 1, false),
              ("*http.ServeMux", 2, false), ("*http.Server", 3, true),
              ("context.Context", 4, false)]
      ∧ ((New mainOptions (World.init closeResult)).1.container.Cleanup
            (New mainOptions (World.init closeResult)).2).2.trace
          = buildTrace ++ Event.Release "*http.Server" :: Event.Close 0 ::
              ((match closeResult 0 with
                | some err => [Event.Println ["server close error:", err]]
                | none => []) ++ [Event.Println ["server closed"]]) := by
  refine ⟨fun V options w w1 w2 => ?_, rfl, ?_⟩
  · obtain ⟨h1, -, h3⟩ := New_ordered options w
    refine ⟨h3, ?_, rfl, rfl⟩
    simp only [Container.Cleanup]
    rw [runCleanup_eq_foldl, h1]
  · have h : ((New mainOptions (World.init closeResult)).1.container.Cleanup
          (New mainOptions (World.init closeResult)).2).2
        = NewServer.cleanup 0
            ((New mainOptions (World.init closeResult)).2.emit (Event.Release "*http.Server")) :=
      rfl
    rw [h, (NewServer.cleanup_spec 0 _).1]
    rfl

/-- C5: `di.New` in `main` works in phases.  The registration phase records the six
providers and runs no constructor; the invoke phase then constructs the two
controllers, the mux and the server, depth-first, and calls `StartServer`; the
resolve phase then constructs the context and copies it into `ctx`; `di.New`
returns a nil error with `ctx` assigned, so the call of `StartServer` comes before
the assignment of `ctx`, which comes before the return. -/
theorem New_runs_in_phases (closeResult : Nat → Option String) :
    (registerAll (provides mainOptions) Container.empty (World.init closeResult)).2.2.trace
        = buildTrace.take 6
      ∧ constructed (buildTrace.take 6) = []
      ∧ (registerAll (provides mainOptions) Container.empty (World.init closeResult)).2.1.cache.length
          = 0
      ∧ (invokeAll (invokes mainOptions) registered
            (registerAll (provides mainOptions) Container.empty
              (World.init closeResult)).2.2).2.2.trace
          = buildTrace.take 12
      ∧ buildTrace.drop 6
          = [ Event.Construct "*main.OrderController", Event.Construct "*main.UserController",
              Event.Construct "*http.ServeMux", Event.Construct "*http.Server",
              Event.Invoke "StartServer", Event.Go (Goroutine.listenAndServe 0),
              Event.Construct "context.Context", Event.Go (Goroutine.awaitSignal 0),
              Event.Resolve "context.Context" ]
      ∧ (New mainOptions (World.init closeResult)).2.trace = buildTrace
      ∧ buildTrace.indexOf (Event.Invoke "StartServer")
          < buildTrace.indexOf (Event.Resolve "context.Context")
      ∧ (New mainOptions (World.init closeResult)).1.err = none
      ∧ ctxSlot (New mainOptions (World.init closeResult)).1.slots = some 0
      ∧ (main [false] (World.init closeResult)).ctx = some 0
      ∧ (main [false] (World.init closeResult)).err = none
      ∧ (main [false] (World.init closeResult)).world.trace = buildTrace :=
  ⟨rfl, by decide, rfl, rfl, by decide, rfl, by decide, rfl, rfl, rfl, rfl, rfl⟩

/-- The build that provides the context twice fails, and `main` with that build
ends in `log.Fatal`. -/
theorem main_aborts_on_build_error_witness :
    (New duplicateOptions (World.init fun _ => none)).1.err
        = some (DiError.DuplicateProviderError "context.Context")
      ∧ (mainRun (New duplicateOptions) [false, false]
            (MainState.init (World.init fun _ => none))).pc = Pc.exited :=
  ⟨by decide,
    ((main_aborts_on_build_error (New duplicateOptions) (World.init fun _ => none)).1
      (DiError.DuplicateProviderError "context.Context") (by decide)
      [false, false]).2.2.2 (by decide) |>.1⟩

/-- C10: the graph declared in `main` is well-formed.  The six providers have
pairwise distinct output identities; each single-value dependency (the server of
`StartServer`, the mux of `NewServer`, the context of the resolve) has exactly one
registered provider and the `Controller` collection of `NewServeMux` has two; the
depends-on relation has the four edges from `StartServer` down to the controllers
and no cycle; and the build returns a nil error. -/
theorem main_graph_is_wellformed :
    (provides mainOptions).map (fun p => p.out)
        = ["*main.StdLogger", "context.Context", "*http.Server", "*http.ServeMux",
            "*main.OrderController", "*main.UserController"]
      ∧ ((provides mainOptions).map fun p => p.out).Nodup
      ∧ (registered.lookup "*http.Server").map (fun p => p.out) = ["*http.Server"]
      ∧ (registered.lookup "*http.ServeMux").map (fun p => p.out) = ["*http.ServeMux"]
      ∧ (registered.lookup "context.Context").map (fun p => p.out) = ["context.Context"]
      ∧ (registered.lookup "main.Controller").map (fun p => p.out)
          = ["*main.OrderController", "*main.UserController"]
      ∧ mainEdges
          = [("StartServer", "*http.Server"), ("*http.Server", "*http.ServeMux"),
              ("*http.ServeMux", "*main.OrderController"),
              ("*http.ServeMux", "*main.UserController")]
      ∧ (∀ x, ¬ Relation.TransGen (fun a b => (a, b) ∈ mainEdges) x x)
      ∧ ∀ closeResult : Nat → Option String,
          (New mainOptions (World.init closeResult)).1.err = none := by
  have he : mainEdges
      = [("StartServer", "*http.Server"), ("*http.Server", "*http.ServeMux"),
          ("*http.ServeMux", "*main.OrderController"),
          ("*http.ServeMux", "*main.UserController")] := by decide
  refine ⟨by decide, by decide, by decide, by decide, by decide, by decide, he, ?_,
    fun _ => rfl⟩
  let depth : Ident → Nat := fun id =>
    if id = "StartServer" then 3
    else if id = "*http.Server" then 2
    else if id = "*http.ServeMux" then 1
    else 0
  have hstep : ∀ a b, (a, b) ∈ mainEdges → depth b < depth a := by
    intro a b hab
    rw [he] at hab
    simp only [List.mem_cons, Prod.mk.injEq, List.mem_singleton, List.not_mem_nil,
      or_false] at hab
    rcases hab with ⟨rfl, rfl⟩ | ⟨rfl, rfl⟩ | ⟨rfl, rfl⟩ | ⟨rfl, rfl⟩ <;> decide
  have hpath : ∀ a b, Relation.TransGen (fun a b => (a, b) ∈ mainEdges) a b →
      depth b < depth a := by
    intro a b hab
    induction hab with
    | single h => exact hstep _ _ h
    | tail _ h ih => exact lt_trans (hstep _ _ h) ih
  intro x hx
  exact lt_irrefl _ (hpath x x hx)

end Tutorial
